import Mathlib

/-!
# Verification of the identicon seed-to-attribute derivation

Shallow embedding of the derivation core of the Identicon-Generator-Site
repository:

* `generateHash` (src/unnamed/part_004): digest provider, SHA-256 over
  `inputString + index`; the hash itself is an abstract parameter here.
* `getRandomValue`, `getColorFromHash`, and the per-field derivations of
  `GeometricIdenticon` (src/identicon-frontend/src/app/GeometricIdenticon.tsx),
  collected into `deriveParameters`.
* The duplicated variant at
  src/frontend/identicon-frontend/src/app/GeometricIdenticon.tsx, whose
  position derivation differs (range 5 instead of 10): `frontendPosX` etc.
* The secondary "head + ring of primitives" variant
  (src/identicon-frontend/src/app/GeometricIdenticonNew.tsx):
  `mkPrimitive`, `primitivePositions`, `createGeometry`.

Numeric conventions: the JavaScript code computes in IEEE doubles, but every
quantity here is an exact byte value scaled by rationals, so the embedding
uses `ℚ`.  The three rotation fields are recorded in units of π (the source
multiplies the scaled byte by `Math.PI * 2`; we store the byte scaled into
`[0, 2]`, the rotation in radians being that value times π), keeping the
whole `ParameterSet` computable.  JavaScript `parseInt(s, 16)` parses the
longest hex-digit prefix and yields NaN when there is none; we model its
result as `Option Nat`, `none` standing for NaN, and propagate `none`
through every arithmetic step exactly as NaN propagates.
-/

/-- Value of one hex digit as accepted by JavaScript `parseInt` with radix 16,
by code point: 48-57 are the decimal digits (value `cp - 48`), 97-102 the
lowercase letters a-f (value `cp - 87`), 65-70 the uppercase letters A-F
(value `cp - 55`); every other character is not a hex digit. -/
def hexVal (c : Char) : Option Nat :=
  if 48 ≤ c.toNat ∧ c.toNat ≤ 57 then some (c.toNat - 48)
  else if 97 ≤ c.toNat ∧ c.toNat ≤ 102 then some (c.toNat - 87)
  else if 65 ≤ c.toNat ∧ c.toNat ≤ 70 then some (c.toNat - 55)
  else none

/-- JavaScript `parseInt(s, 16)` on a raw digest slice (no sign or blank
handling is needed for such slices): parse the longest prefix of hex digits;
an empty prefix is NaN (`none`). -/
def parseIntHex (s : String) : Option Nat :=
  let ds := s.data.takeWhile (fun c => (hexVal c).isSome)
  if ds.isEmpty then none
  else some (ds.foldl (fun a c => 16 * a + ((hexVal c).getD 0)) 0)

/-- JavaScript `s.slice(a, b)` for `a ≤ b` (both non-negative): the characters
of `s` from position `a` (inclusive) to `b` (exclusive), clamped to the
string. -/
def sliceJS (s : String) (a b : Nat) : String :=
  ((s.data.drop a).take (b - a)).asString

/-- The byte-segment read `parseInt(hash.slice(j * 2, j * 2 + 2), 16)`
performed by `getRandomValue` at (already wrapped) slot index `j`. -/
def byteAt (s : String) (j : Nat) : Option Nat :=
  parseIntHex (sliceJS s (j * 2) (j * 2 + 2))

/-- `getRandomValue(hash, index, range)` of GeometricIdenticon.tsx:
`(parseInt(hash.slice((index % (hash.length / 2)) * 2,
(index % (hash.length / 2)) * 2 + 2), 16) / 255) * range`.
For the even-length strings all claims range over, JavaScript
`hash.length / 2` is exact, so `Nat` division agrees with it. -/
def getRandomValue (hash : String) (index : Nat) (range : ℚ) : Option ℚ :=
  (byteAt hash (index % (hash.length / 2))).map (fun v => ((v : ℚ) / 255) * range)

/-- An HSL color; `getColorFromHash` always renders it with the template
`hsl(hue, 70%, 50%)`. `none` hue stands for the string "NaN" interpolated. -/
structure HSL where
  hue : Option ℚ
  saturation : ℚ
  lightness : ℚ

/-- `getColorFromHash(hash, index)`:
hsl(`getRandomValue(hash, index, 360)`, 70%, 50%). -/
def getColorFromHash (hash : String) (index : Nat) : HSL :=
  ⟨getRandomValue hash index 360, 70, 50⟩

/-- The seven three.js geometry constructors used by the `geometries` array /
the `switch` of the two GeometricIdenticon variants. -/
inductive Geometry
  | box | sphere | cone | torusKnot | dodecahedron | octahedron | tetrahedron
deriving DecidableEq, Repr

/-- The `geometries` array of GeometricIdenticon.tsx, in JSX order; entry 7
(key "boxDefault") is a second `boxGeometry` with the same arguments as
entry 0. -/
def geometries : List Geometry :=
  [Geometry.box, Geometry.sphere, Geometry.cone, Geometry.torusKnot,
   Geometry.dodecahedron, Geometry.octahedron, Geometry.tetrahedron, Geometry.box]

/-- `geometries[typeIndex] || geometries[0]`: an integral in-bounds index picks
its array entry; a NaN or out-of-bounds index reads `undefined`, so the `||`
falls back to `geometries[0]`. -/
def selectGeometry (ti : Option ℤ) : Geometry :=
  match ti with
  | none => Geometry.box
  | some k => if 0 ≤ k then geometries.getD k.toNat Geometry.box else Geometry.box

/-- `Math.floor(getRandomValue(hash, 0, 7))` (the `typeIndex` memo);
`Math.floor` of NaN is NaN. -/
def typeIndex (hash : String) : Option ℤ :=
  (getRandomValue hash 0 7).map (fun q => ⌊q⌋)

/-- All digest-derived attributes of one GeometricIdenticon mesh.  Fields
mirror, in order: the `typeIndex` memo, the `position` memo (x, y, z), the
`scale` memo (x, y, z), the hue of the `color` memo, the `rotation` memo
(x, y, z, each stored in units of π), the material opacity, the material
wireframe flag, and the selected geometry. -/
structure ParameterSet where
  typeIndex : Option ℤ
  posX : Option ℚ
  posY : Option ℚ
  posZ : Option ℚ
  sclX : Option ℚ
  sclY : Option ℚ
  sclZ : Option ℚ
  hue : Option ℚ
  rotX : Option ℚ
  rotY : Option ℚ
  rotZ : Option ℚ
  opacity : Option ℚ
  wireframe : Bool
  shape : Geometry

/-- The full derivation performed by the `GeometricIdenticon` component of
src/identicon-frontend/src/app/GeometricIdenticon.tsx on one hash string:
* position = `getRandomValue(hash, i, 10) - 5` for i = 1, 2, 3;
* typeIndex = `Math.floor(getRandomValue(hash, 0, 7))`;
* scale = `getRandomValue(hash, i, 2) + 0.5` for i = 4, 5, 6;
* hue = `getColorFromHash(hash, 7)`;
* rotation = `getRandomValue(hash, i, Math.PI * 2)` for i = 8, 9, 10
  (stored here in units of π, i.e. the byte scaled into `[0, 2]`);
* opacity = `0.5 + getRandomValue(hash, 11, 0.5)`;
* wireframe = `typeIndex % 2 === 0` (false when typeIndex is NaN, since
  `NaN % 2 === 0` is false);
* shape = `geometries[typeIndex] || geometries[0]`. -/
def deriveParameters (hash : String) : ParameterSet :=
  let ti := typeIndex hash
  ⟨ti,
   (getRandomValue hash 1 10).map (fun v => v - 5),
   (getRandomValue hash 2 10).map (fun v => v - 5),
   (getRandomValue hash 3 10).map (fun v => v - 5),
   (getRandomValue hash 4 2).map (fun v => v + 1/2),
   (getRandomValue hash 5 2).map (fun v => v + 1/2),
   (getRandomValue hash 6 2).map (fun v => v + 1/2),
   (getColorFromHash hash 7).hue,
   getRandomValue hash 8 2,
   getRandomValue hash 9 2,
   getRandomValue hash 10 2,
   (getRandomValue hash 11 (1/2)).map (fun v => 1/2 + v),
   (match ti with
    | some k => decide (k % 2 = 0)
    | none => false),
   selectGeometry ti⟩

/-! Field projections of `deriveParameters`, each holding by definitional
unfolding. -/

lemma deriveParameters_typeIndex (h : String) :
    (deriveParameters h).typeIndex = typeIndex h := rfl

lemma deriveParameters_posX (h : String) :
    (deriveParameters h).posX = (getRandomValue h 1 10).map (fun v => v - 5) := rfl

lemma deriveParameters_posY (h : String) :
    (deriveParameters h).posY = (getRandomValue h 2 10).map (fun v => v - 5) := rfl

lemma deriveParameters_posZ (h : String) :
    (deriveParameters h).posZ = (getRandomValue h 3 10).map (fun v => v - 5) := rfl

lemma deriveParameters_sclX (h : String) :
    (deriveParameters h).sclX = (getRandomValue h 4 2).map (fun v => v + 1/2) := rfl

lemma deriveParameters_sclY (h : String) :
    (deriveParameters h).sclY = (getRandomValue h 5 2).map (fun v => v + 1/2) := rfl

lemma deriveParameters_sclZ (h : String) :
    (deriveParameters h).sclZ = (getRandomValue h 6 2).map (fun v => v + 1/2) := rfl

lemma deriveParameters_hue (h : String) :
    (deriveParameters h).hue = getRandomValue h 7 360 := rfl

lemma deriveParameters_rotX (h : String) :
    (deriveParameters h).rotX = getRandomValue h 8 2 := rfl

lemma deriveParameters_rotY (h : String) :
    (deriveParameters h).rotY = getRandomValue h 9 2 := rfl

lemma deriveParameters_rotZ (h : String) :
    (deriveParameters h).rotZ = getRandomValue h 10 2 := rfl

lemma deriveParameters_opacity (h : String) :
    (deriveParameters h).opacity =
      (getRandomValue h 11 (1/2)).map (fun v => 1/2 + v) := rfl

lemma deriveParameters_wireframe (h : String) :
    (deriveParameters h).wireframe =
      (match typeIndex h with
       | some k => decide (k % 2 = 0)
       | none => false) := rfl

lemma deriveParameters_shape (h : String) :
    (deriveParameters h).shape = selectGeometry (typeIndex h) := rfl

/-- Position derivation of the duplicated variant at
src/frontend/identicon-frontend/src/app/GeometricIdenticon.tsx, x component:
`getRandomValue(hash, 1, 5) - 5` (its `getRandomValue` is the same function
as above). -/
def frontendPosX (hash : String) : Option ℚ :=
  (getRandomValue hash 1 5).map (fun v => v - 5)

/-- Frontend-variant position, y component: `getRandomValue(hash, 2, 5) - 5`. -/
def frontendPosY (hash : String) : Option ℚ :=
  (getRandomValue hash 2 5).map (fun v => v - 5)

/-- Frontend-variant position, z component: `getRandomValue(hash, 3, 5) - 5`. -/
def frontendPosZ (hash : String) : Option ℚ :=
  (getRandomValue hash 3 5).map (fun v => v - 5)

/-- A well-formed digest as produced by the digest provider: exactly 64
characters, all hex digits. -/
def Valid64 (s : String) : Prop :=
  s.length = 64 ∧ ∀ c ∈ s.data, (hexVal c).isSome

instance (s : String) : Decidable (Valid64 s) := by
  unfold Valid64; infer_instance

/-- The 64-character digest consisting solely of the hex digit f. -/
def allF : String := ⟨List.replicate 64 'f'⟩

/-- A malformed 64-character "digest" consisting solely of the non-hex
character z. -/
def allZ : String := ⟨List.replicate 64 'z'⟩

/-! ## Supporting lemmas about the byte extraction -/

lemma hexVal_lt_16 {c : Char} {v : Nat} (h : hexVal c = some v) : v < 16 := by
  unfold hexVal at h
  split at h
  · injection h with h2; omega
  · split at h
    · injection h with h2; omega
    · split at h
      · injection h with h2; omega
      · exact absurd h (by simp)

lemma parseIntHex_pair {c1 c2 : Char} {v1 v2 : Nat} (h1 : hexVal c1 = some v1)
    (h2 : hexVal c2 = some v2) :
    parseIntHex (List.asString [c1, c2]) = some (16 * v1 + v2) := by
  unfold parseIntHex
  simp [List.asString, List.takeWhile, h1, h2]

lemma take_two_drop {l : List Char} {j : Nat} (h : j + 1 < l.length) :
    (l.drop j).take 2 = [l.get ⟨j, by omega⟩, l.get ⟨j + 1, h⟩] := by
  induction l generalizing j with
  | nil => simp at h
  | cons a t ih =>
    cases j with
    | zero =>
      cases t with
      | nil => simp at h
      | cons b t2 => simp
    | succ j2 =>
      have h2 : j2 + 1 < t.length := by simpa using h
      simpa using ih h2

/-- On an all-hex string, reading the byte segment at any in-bounds slot
index succeeds and yields a value below 256. -/
lemma byteAt_pair {s : String} {j : Nat} (hj : j * 2 + 1 < s.length)
    (hhex : ∀ c ∈ s.data, (hexVal c).isSome) :
    ∃ b, b < 256 ∧ byteAt s j = some b := by
  have hlen : s.length = s.data.length := rfl
  have hj2 : j * 2 + 1 < s.data.length := by omega
  have hj1 : j * 2 < s.data.length := by omega
  have hc1 : (hexVal (s.data.get ⟨j * 2, hj1⟩)).isSome :=
    hhex _ (List.get_mem s.data (j * 2) hj1)
  have hc2 : (hexVal (s.data.get ⟨j * 2 + 1, hj2⟩)).isSome :=
    hhex _ (List.get_mem s.data (j * 2 + 1) hj2)
  obtain ⟨v1, hv1⟩ := Option.isSome_iff_exists.mp hc1
  obtain ⟨v2, hv2⟩ := Option.isSome_iff_exists.mp hc2
  have hslice : sliceJS s (j * 2) (j * 2 + 2) =
      List.asString [s.data.get ⟨j * 2, hj1⟩, s.data.get ⟨j * 2 + 1, hj2⟩] := by
    unfold sliceJS
    have h2 : j * 2 + 2 - j * 2 = 2 := by omega
    rw [h2, take_two_drop hj2]
  refine ⟨16 * v1 + v2, ?_, ?_⟩
  · have := hexVal_lt_16 hv1
    have := hexVal_lt_16 hv2
    omega
  · unfold byteAt
    rw [hslice, parseIntHex_pair hv1 hv2]

/-- Master evaluation lemma: on a nonempty even-length all-hex string,
`getRandomValue` reads the byte at the wrapped slot index and rescales it. -/
lemma getRandomValue_eq {s : String} (h2 : s.length % 2 = 0) (h0 : 0 < s.length)
    (hhex : ∀ c ∈ s.data, (hexVal c).isSome) (i : Nat) (r : ℚ) :
    ∃ b, b < 256 ∧ byteAt s (i % (s.length / 2)) = some b ∧
      getRandomValue s i r = some (((b : ℚ) / 255) * r) := by
  have hn : 0 < s.length / 2 := by omega
  have hj : i % (s.length / 2) < s.length / 2 := Nat.mod_lt _ hn
  have hjl : (i % (s.length / 2)) * 2 + 1 < s.length := by omega
  obtain ⟨b, hb, hbyte⟩ := byteAt_pair hjl hhex
  refine ⟨b, hb, hbyte, ?_⟩
  unfold getRandomValue
  rw [hbyte]
  rfl

/-- A byte below 256 rescaled by `/ 255` lies in `[0, 1]`. -/
lemma scaled01 {b : Nat} (hb : b < 256) :
    0 ≤ (b : ℚ) / 255 ∧ (b : ℚ) / 255 ≤ 1 := by
  have h255 : (b : ℚ) ≤ 255 := by exact_mod_cast Nat.lt_succ_iff.mp hb
  constructor
  · positivity
  · rw [div_le_one (by norm_num : (0 : ℚ) < 255)]
    exact h255

/-- Bounds form of the master lemma: for a non-negative range the scaled
value exists and lies in `[0, range]`. -/
lemma getRandomValue_bounds {s : String} (h2 : s.length % 2 = 0)
    (h0 : 0 < s.length) (hhex : ∀ c ∈ s.data, (hexVal c).isSome) (i : Nat)
    {r : ℚ} (hr : 0 ≤ r) :
    ∃ v, getRandomValue s i r = some v ∧ 0 ≤ v ∧ v ≤ r := by
  obtain ⟨b, hb, _, hg⟩ := getRandomValue_eq h2 h0 hhex i r
  obtain ⟨ht0, ht1⟩ := scaled01 hb
  refine ⟨((b : ℚ) / 255) * r, hg, ?_, ?_⟩
  · exact mul_nonneg ht0 hr
  · calc ((b : ℚ) / 255) * r ≤ 1 * r := mul_le_mul_of_nonneg_right ht1 hr
    _ = r := one_mul r

/-! ## Validity of a derived ParameterSet -/

/-- An `Option ℚ` holding a value of the given closed interval. -/
def inCl (x : Option ℚ) (lo hi : ℚ) : Bool :=
  match x with
  | some v => decide (lo ≤ v) && decide (v ≤ hi)
  | none => false

/-- A type index that is present and within `0..7` (the bounds the geometry
array tolerates). -/
def tiOk (x : Option ℤ) : Bool :=
  match x with
  | some k => decide (0 ≤ k) && decide (k ≤ 7)
  | none => false

/-- Every numeric field is present (no NaN) and inside its interval:
typeIndex in `[0, 7]`, position components in `[-5, 5]`, scale components in
`[0.5, 2.5]`, hue in `[0, 360]`, rotations in `[0, 2π]` (stored bound `[0,2]`
in units of π), opacity in `[0.5, 1]`. -/
def ParameterSet.wellFormed (p : ParameterSet) : Bool :=
  tiOk p.typeIndex &&
  inCl p.posX (-5) 5 && inCl p.posY (-5) 5 && inCl p.posZ (-5) 5 &&
  inCl p.sclX (1/2) (5/2) && inCl p.sclY (1/2) (5/2) && inCl p.sclZ (1/2) (5/2) &&
  inCl p.hue 0 360 &&
  inCl p.rotX 0 2 && inCl p.rotY 0 2 && inCl p.rotZ 0 2 &&
  inCl p.opacity (1/2) 1

lemma inCl_of {x : Option ℚ} {v lo hi : ℚ} (hx : x = some v) (h1 : lo ≤ v)
    (h2 : v ≤ hi) : inCl x lo hi = true := by
  subst hx; simp [inCl, h1, h2]

set_option maxHeartbeats 2000000 in
/-- On every nonempty even-length all-hex string the full derivation yields a
well-formed `ParameterSet`. -/
lemma wellFormed_of_hex {s : String} (h2 : s.length % 2 = 0) (h0 : 0 < s.length)
    (hhex : ∀ c ∈ s.data, (hexVal c).isSome) :
    (deriveParameters s).wellFormed = true := by
  obtain ⟨b0, hb0, _, hg0⟩ := getRandomValue_eq h2 h0 hhex 0 7
  obtain ⟨b1, hb1, _, hg1⟩ := getRandomValue_eq h2 h0 hhex 1 10
  obtain ⟨b2, hb2, _, hg2⟩ := getRandomValue_eq h2 h0 hhex 2 10
  obtain ⟨b3, hb3, _, hg3⟩ := getRandomValue_eq h2 h0 hhex 3 10
  obtain ⟨b4, hb4, _, hg4⟩ := getRandomValue_eq h2 h0 hhex 4 2
  obtain ⟨b5, hb5, _, hg5⟩ := getRandomValue_eq h2 h0 hhex 5 2
  obtain ⟨b6, hb6, _, hg6⟩ := getRandomValue_eq h2 h0 hhex 6 2
  obtain ⟨b7, hb7, _, hg7⟩ := getRandomValue_eq h2 h0 hhex 7 360
  obtain ⟨b8, hb8, _, hg8⟩ := getRandomValue_eq h2 h0 hhex 8 2
  obtain ⟨b9, hb9, _, hg9⟩ := getRandomValue_eq h2 h0 hhex 9 2
  obtain ⟨b10, hb10, _, hg10⟩ := getRandomValue_eq h2 h0 hhex 10 2
  obtain ⟨b11, hb11, _, hg11⟩ := getRandomValue_eq h2 h0 hhex 11 (1/2)
  obtain ⟨t0l, t0u⟩ := scaled01 hb0
  obtain ⟨t1l, t1u⟩ := scaled01 hb1
  obtain ⟨t2l, t2u⟩ := scaled01 hb2
  obtain ⟨t3l, t3u⟩ := scaled01 hb3
  obtain ⟨t4l, t4u⟩ := scaled01 hb4
  obtain ⟨t5l, t5u⟩ := scaled01 hb5
  obtain ⟨t6l, t6u⟩ := scaled01 hb6
  obtain ⟨t7l, t7u⟩ := scaled01 hb7
  obtain ⟨t8l, t8u⟩ := scaled01 hb8
  obtain ⟨t9l, t9u⟩ := scaled01 hb9
  obtain ⟨t10l, t10u⟩ := scaled01 hb10
  obtain ⟨t11l, t11u⟩ := scaled01 hb11
  have hti : tiOk (deriveParameters s).typeIndex = true := by
    have hfl : (deriveParameters s).typeIndex = some ⌊((b0 : ℚ) / 255) * 7⌋ := by
      rw [deriveParameters_typeIndex]; unfold typeIndex; rw [hg0]; rfl
    rw [hfl]
    have hnn : (0 : ℤ) ≤ ⌊((b0 : ℚ) / 255) * 7⌋ :=
      Int.floor_nonneg.mpr (by nlinarith)
    have hub : ⌊((b0 : ℚ) / 255) * 7⌋ < 8 := by
      rw [Int.floor_lt]
      push_cast
      nlinarith
    simp [tiOk, hnn]
    omega
  unfold ParameterSet.wellFormed
  rw [hti,
    inCl_of (v := ((b1 : ℚ) / 255) * 10 - 5)
      (by rw [deriveParameters_posX, hg1]; rfl) (by nlinarith) (by nlinarith),
    inCl_of (v := ((b2 : ℚ) / 255) * 10 - 5)
      (by rw [deriveParameters_posY, hg2]; rfl) (by nlinarith) (by nlinarith),
    inCl_of (v := ((b3 : ℚ) / 255) * 10 - 5)
      (by rw [deriveParameters_posZ, hg3]; rfl) (by nlinarith) (by nlinarith),
    inCl_of (v := ((b4 : ℚ) / 255) * 2 + 1/2)
      (by rw [deriveParameters_sclX, hg4]; rfl) (by nlinarith) (by nlinarith),
    inCl_of (v := ((b5 : ℚ) / 255) * 2 + 1/2)
      (by rw [deriveParameters_sclY, hg5]; rfl) (by nlinarith) (by nlinarith),
    inCl_of (v := ((b6 : ℚ) / 255) * 2 + 1/2)
      (by rw [deriveParameters_sclZ, hg6]; rfl) (by nlinarith) (by nlinarith),
    inCl_of (v := ((b7 : ℚ) / 255) * 360)
      (by rw [deriveParameters_hue, hg7]) (by nlinarith) (by nlinarith),
    inCl_of (v := ((b8 : ℚ) / 255) * 2)
      (by rw [deriveParameters_rotX, hg8]) (by nlinarith) (by nlinarith),
    inCl_of (v := ((b9 : ℚ) / 255) * 2)
      (by rw [deriveParameters_rotY, hg9]) (by nlinarith) (by nlinarith),
    inCl_of (v := ((b10 : ℚ) / 255) * 2)
      (by rw [deriveParameters_rotZ, hg10]) (by nlinarith) (by nlinarith),
    inCl_of (v := 1/2 + ((b11 : ℚ) / 255) * (1/2))
      (by rw [deriveParameters_opacity, hg11]; rfl) (by nlinarith) (by nlinarith)]
  rfl

/-- The fail-fast derivation required by the spec, for comparison with the
code: validate the digest (64 hex characters), then derive; reject malformed
digests with an explicit "invalid digest" error. -/
def deriveParametersChecked (hash : String) : Except String ParameterSet :=
  if Valid64 hash then Except.ok (deriveParameters hash)
  else Except.error "invalid digest"

/-- A digest agreeing with `allF` exactly on byte 7 (characters 14 and 15)
and nowhere else. -/
def hueTwin : String :=
  ⟨List.replicate 14 '0' ++ ('f' :: 'f' :: List.replicate 48 '0')⟩

/-- A 20-hex-character digest, shorter than the 24 characters needed for the
highest slot without wrapping. -/
def shortHex : String := ⟨List.replicate 20 'a'⟩

example : Valid64 allF := by decide
example : ¬ Valid64 allZ := by decide
example : byteAt allF 7 = some 255 := by decide
example : getRandomValue allF 7 360 = some 360 := by with_unfolding_all decide
example : (deriveParameters allF).hue = some 360 := by with_unfolding_all decide
example : (deriveParameters allZ).hue = none := by with_unfolding_all decide
example : (deriveParameters allF).typeIndex = some 7 := by with_unfolding_all decide
example : (deriveParameters allF).shape = Geometry.box := by with_unfolding_all decide
example : (deriveParameters allF).wireframe = false := by with_unfolding_all decide
example : frontendPosX allF = some 0 := by with_unfolding_all decide
example : (deriveParameters allF).posX = some 5 := by with_unfolding_all decide

/-! ## Claims -/

/-- C4: for every valid digest, slot index and non-negative range,
`scalar(digest, slot, range)` (the source's `getRandomValue`) equals
`(b / 255) * range`, where `b ≤ 255` is the byte parsed from the
2-hex-character substring at byte offset `slot mod floor(len(digest)/2)`,
and the result lies in `[0, range]`. -/
theorem C4_scalar_exact (d : String) (hd : Valid64 d) (slot : Nat) (range : ℚ)
    (hr : 0 ≤ range) :
    ∃ b, byteAt d (slot % (d.length / 2)) = some b ∧ b ≤ 255 ∧
      getRandomValue d slot range = some (((b : ℚ) / 255) * range) ∧
      0 ≤ ((b : ℚ) / 255) * range ∧ ((b : ℚ) / 255) * range ≤ range := by
  obtain ⟨hlen, hhex⟩ := hd
  obtain ⟨b, hb, hbyte, hg⟩ :=
    getRandomValue_eq (by omega) (by omega) hhex slot range
  obtain ⟨tl, tu⟩ := scaled01 hb
  refine ⟨b, hbyte, by omega, hg, mul_nonneg tl hr, ?_⟩
  calc ((b : ℚ) / 255) * range ≤ 1 * range := mul_le_mul_of_nonneg_right tu hr
  _ = range := one_mul range

/-- Witness for C4 at the all-f digest, slot 3 and range 10 (byte 255,
scalar value 10). -/
theorem C4_scalar_exact_witness :
    Valid64 allF ∧ (0 : ℚ) ≤ 10 ∧
      (∃ b, byteAt allF (3 % (allF.length / 2)) = some b ∧ b ≤ 255 ∧
        getRandomValue allF 3 10 = some (((b : ℚ) / 255) * 10) ∧
        0 ≤ ((b : ℚ) / 255) * 10 ∧ ((b : ℚ) / 255) * 10 ≤ 10) :=
  ⟨by decide, by norm_num, C4_scalar_exact allF (by decide) 3 10 (by norm_num)⟩

/-- C2 counterexample: at the valid all-f digest the derived hue is exactly
360, so the hue does NOT lie in the half-open interval [0, 360) claimed by
the spec. -/
theorem C2_hue_counterexample :
    Valid64 allF ∧
      ∃ hv : ℚ, (deriveParameters allF).hue = some hv ∧ 360 ≤ hv :=
  ⟨by decide, 360, by with_unfolding_all decide, le_refl 360⟩

/-- C2 (amended): for every valid digest the derived hue lies in the CLOSED
interval [0, 360] (360 is attained when byte 7 is 0xff) and the derived
opacity lies in [0.5, 1.0]. -/
theorem C2_field_ranges (d : String) (hd : Valid64 d) :
    (∀ hv : ℚ, (deriveParameters d).hue = some hv → 0 ≤ hv ∧ hv ≤ 360) ∧
    (∀ ov : ℚ, (deriveParameters d).opacity = some ov → 1/2 ≤ ov ∧ ov ≤ 1) := by
  obtain ⟨hlen, hhex⟩ := hd
  obtain ⟨b7, hb7, _, hg7⟩ :=
    getRandomValue_eq (by omega) (by omega) hhex 7 360
  obtain ⟨b11, hb11, _, hg11⟩ :=
    getRandomValue_eq (by omega) (by omega) hhex 11 (1/2)
  obtain ⟨t7l, t7u⟩ := scaled01 hb7
  obtain ⟨t11l, t11u⟩ := scaled01 hb11
  constructor
  · intro hv h
    rw [deriveParameters_hue, hg7] at h
    injection h with h
    subst h
    constructor <;> nlinarith
  · intro ov h
    rw [deriveParameters_opacity, hg11] at h
    simp only [Option.map_some'] at h
    injection h with h
    subst h
    constructor <;> nlinarith

/-- Witness for C2 at the all-f digest (hue 360, opacity 1). -/
theorem C2_field_ranges_witness :
    Valid64 allF ∧ ((0 : ℚ) ≤ 360 ∧ (360 : ℚ) ≤ 360) ∧
      ((1/2 : ℚ) ≤ 1 ∧ (1 : ℚ) ≤ 1) :=
  ⟨by decide,
   (C2_field_ranges allF (by decide)).1 360 (by with_unfolding_all decide),
   (C2_field_ranges allF (by decide)).2 1 (by with_unfolding_all decide)⟩

/-- C6: every even-length nonempty hex digest shorter than 24 characters
still yields, for every slot and non-negative range, an in-range scalar
(slot indices wrap modulo the number of byte segments), and the full
derivation yields a well-formed ParameterSet. -/
theorem C6_short_digest_wrap (s : String) (heven : s.length % 2 = 0)
    (hne : 0 < s.length) (hshort : s.length < 24)
    (hhex : ∀ c ∈ s.data, (hexVal c).isSome) :
    (∀ slot : Nat, ∀ range : ℚ, 0 ≤ range →
      ∃ v, getRandomValue s slot range = some v ∧ 0 ≤ v ∧ v ≤ range) ∧
    (deriveParameters s).wellFormed = true :=
  ⟨fun slot _range hr => getRandomValue_bounds heven hne hhex slot hr,
   wellFormed_of_hex heven hne hhex⟩

/-- Witness for C6 at a 20-character digest. -/
theorem C6_short_digest_wrap_witness :
    (shortHex.length % 2 = 0 ∧ 0 < shortHex.length ∧ shortHex.length < 24 ∧
      ∀ c ∈ shortHex.data, (hexVal c).isSome) ∧
    (deriveParameters shortHex).wellFormed = true :=
  ⟨by decide,
   (C6_short_digest_wrap shortHex (by decide) (by decide) (by decide)
     (by decide)).2⟩

/-- C3 counterexample: on the malformed all-z digest (64 characters, no hex
digit) `deriveParameters` does not fail: the spec-mandated checker rejects
it with "invalid digest", but the code still produces a ParameterSet, whose
numeric fields are silently NaN (`none`) while wireframe and shape come out
as ordinary defaults. -/
theorem C3_no_validation_counterexample :
    ¬ Valid64 allZ ∧
    deriveParametersChecked allZ = Except.error "invalid digest" ∧
    (deriveParameters allZ).hue = none ∧
    (deriveParameters allZ).posX = none ∧
    (deriveParameters allZ).typeIndex = none ∧
    (deriveParameters allZ).wireframe = false ∧
    (deriveParameters allZ).shape = Geometry.box := by
  refine ⟨by decide, ?_, ?_, ?_, ?_, ?_, ?_⟩
  · unfold deriveParametersChecked
    rw [if_neg (by decide : ¬ Valid64 allZ)]
  all_goals with_unfolding_all decide

/-- C3 (amended): `deriveParameters` performs no validation and has no error
channel: every well-formed digest yields a full in-range ParameterSet, while
a malformed digest is processed anyway and silently yields NaN fields. -/
theorem C3_derive_total (d : String) (hd : Valid64 d) :
    (deriveParameters d).wellFormed = true ∧ (deriveParameters allZ).hue = none :=
  ⟨by
    obtain ⟨hlen, hhex⟩ := hd
    exact wellFormed_of_hex (by omega) (by omega) hhex,
   by with_unfolding_all decide⟩

/-- Witness for C3 (amended) at the all-f digest. -/
theorem C3_derive_total_witness :
    Valid64 allF ∧ (deriveParameters allF).wellFormed = true :=
  ⟨by decide, (C3_derive_total allF (by decide)).1⟩

/-- C1: evaluation at the failing input. At the valid all-f digest the
primary variant (src/identicon-frontend) derives position components
`scalar(digest, slot, 10) - 5 = 5`, as the claim states; the duplicated
variant (src/frontend/identicon-frontend) instead computes
`scalar(digest, slot, 5) - 5 = 0`, so its position components lie in
`[-5, 0]`, contradicting the claim and the variant's own comment
"mapped to a range from -5 to 5". -/
theorem C1_position_divergence :
    (deriveParameters allF).posX = some 5 ∧
    (deriveParameters allF).posY = some 5 ∧
    (deriveParameters allF).posZ = some 5 ∧
    frontendPosX allF = some 0 ∧
    frontendPosY allF = some 0 ∧
    frontendPosZ allF = some 0 := by
  refine ⟨?_, ?_, ?_, ?_, ?_, ?_⟩ <;> with_unfolding_all decide

/-- C5: for every valid digest the selector `floor(scalar(digest, 0, 7))` is
an integer k with 0 ≤ k ≤ 7, the selected geometry is the array entry at k
(so selection is total and never leaves the fixed variant set), and the
out-of-range ordinal 7 (which occurs exactly when byte 0 is 0xff) falls back
to the first variant, the box. -/
theorem C5_shape_totality (d : String) (hd : Valid64 d) :
    ∃ k : ℤ, (deriveParameters d).typeIndex = some k ∧ 0 ≤ k ∧ k ≤ 7 ∧
      (deriveParameters d).shape = geometries.getD k.toNat Geometry.box ∧
      (k = 7 → (deriveParameters d).shape = Geometry.box) ∧
      (deriveParameters d).shape ∈ geometries := by
  obtain ⟨hlen, hhex⟩ := hd
  obtain ⟨b0, hb0, _, hg0⟩ := getRandomValue_eq (by omega) (by omega) hhex 0 7
  obtain ⟨t0l, t0u⟩ := scaled01 hb0
  have hti : typeIndex d = some ⌊((b0 : ℚ) / 255) * 7⌋ := by
    unfold typeIndex; rw [hg0]; rfl
  have hfl : (deriveParameters d).typeIndex = some ⌊((b0 : ℚ) / 255) * 7⌋ := by
    rw [deriveParameters_typeIndex, hti]
  have hnn : (0 : ℤ) ≤ ⌊((b0 : ℚ) / 255) * 7⌋ :=
    Int.floor_nonneg.mpr (by nlinarith)
  have hub : ⌊((b0 : ℚ) / 255) * 7⌋ < 8 := by
    rw [Int.floor_lt]; push_cast; nlinarith
  set k := ⌊((b0 : ℚ) / 255) * 7⌋ with hk
  have hshape : (deriveParameters d).shape = geometries.getD k.toNat Geometry.box := by
    rw [deriveParameters_shape, hti]
    simp [selectGeometry, hnn]
  refine ⟨k, hfl, hnn, by omega, hshape, ?_, ?_⟩
  · intro h7
    rw [hshape, h7]
    rfl
  · rw [hshape]
    have h8 : k.toNat < geometries.length := by
      simp only [geometries, List.length]
      omega
    rw [List.getD_eq_getElem geometries Geometry.box h8]
    exact List.getElem_mem h8

/-- Witness for C5 at the all-f digest (selector ordinal 7, fallback box). -/
theorem C5_shape_totality_witness :
    Valid64 allF ∧
      (∃ k : ℤ, (deriveParameters allF).typeIndex = some k ∧ 0 ≤ k ∧ k ≤ 7 ∧
        (deriveParameters allF).shape = geometries.getD k.toNat Geometry.box ∧
        (k = 7 → (deriveParameters allF).shape = Geometry.box) ∧
        (deriveParameters allF).shape ∈ geometries) :=
  ⟨by decide, C5_shape_totality allF (by decide)⟩

lemma getRandomValue_congr {d1 d2 : String} (h1 : d1.length = 64)
    (h2 : d2.length = 64) (i : Nat) (r : ℚ)
    (hb : byteAt d1 (i % 32) = byteAt d2 (i % 32)) :
    getRandomValue d1 i r = getRandomValue d2 i r := by
  unfold getRandomValue
  rw [h1, h2]
  have h32 : (64 : Nat) / 2 = 32 := rfl
  rw [h32, hb]

/-- C7: each visual property is a function of only its own fixed slot's byte:
whenever two valid 64-hex digests agree on the byte at a property's slot
(slot 0 for typeIndex/shape/wireframe, 1-3 for position, 4-6 for scale,
7 for hue, 8-10 for rotation, 11 for opacity), the derived value of that
property is identical, whatever the other digest bytes are. -/
theorem C7_slot_independence (d1 d2 : String) (h1 : Valid64 d1)
    (h2 : Valid64 d2) :
    (byteAt d1 0 = byteAt d2 0 →
      (deriveParameters d1).typeIndex = (deriveParameters d2).typeIndex ∧
      (deriveParameters d1).shape = (deriveParameters d2).shape ∧
      (deriveParameters d1).wireframe = (deriveParameters d2).wireframe) ∧
    (byteAt d1 1 = byteAt d2 1 →
      (deriveParameters d1).posX = (deriveParameters d2).posX) ∧
    (byteAt d1 2 = byteAt d2 2 →
      (deriveParameters d1).posY = (deriveParameters d2).posY) ∧
    (byteAt d1 3 = byteAt d2 3 →
      (deriveParameters d1).posZ = (deriveParameters d2).posZ) ∧
    (byteAt d1 4 = byteAt d2 4 →
      (deriveParameters d1).sclX = (deriveParameters d2).sclX) ∧
    (byteAt d1 5 = byteAt d2 5 →
      (deriveParameters d1).sclY = (deriveParameters d2).sclY) ∧
    (byteAt d1 6 = byteAt d2 6 →
      (deriveParameters d1).sclZ = (deriveParameters d2).sclZ) ∧
    (byteAt d1 7 = byteAt d2 7 →
      (deriveParameters d1).hue = (deriveParameters d2).hue) ∧
    (byteAt d1 8 = byteAt d2 8 →
      (deriveParameters d1).rotX = (deriveParameters d2).rotX) ∧
    (byteAt d1 9 = byteAt d2 9 →
      (deriveParameters d1).rotY = (deriveParameters d2).rotY) ∧
    (byteAt d1 10 = byteAt d2 10 →
      (deriveParameters d1).rotZ = (deriveParameters d2).rotZ) ∧
    (byteAt d1 11 = byteAt d2 11 →
      (deriveParameters d1).opacity = (deriveParameters d2).opacity) := by
  obtain ⟨hl1, _⟩ := h1
  obtain ⟨hl2, _⟩ := h2
  refine ⟨?_, ?_, ?_, ?_, ?_, ?_, ?_, ?_, ?_, ?_, ?_, ?_⟩ <;> intro hb
  · have hti : typeIndex d1 = typeIndex d2 := by
      unfold typeIndex
      rw [getRandomValue_congr hl1 hl2 0 7 hb]
    exact ⟨by rw [deriveParameters_typeIndex, deriveParameters_typeIndex, hti],
      by rw [deriveParameters_shape, deriveParameters_shape, hti],
      by rw [deriveParameters_wireframe, deriveParameters_wireframe, hti]⟩
  · rw [deriveParameters_posX, deriveParameters_posX,
      getRandomValue_congr hl1 hl2 1 10 hb]
  · rw [deriveParameters_posY, deriveParameters_posY,
      getRandomValue_congr hl1 hl2 2 10 hb]
  · rw [deriveParameters_posZ, deriveParameters_posZ,
      getRandomValue_congr hl1 hl2 3 10 hb]
  · rw [deriveParameters_sclX, deriveParameters_sclX,
      getRandomValue_congr hl1 hl2 4 2 hb]
  · rw [deriveParameters_sclY, deriveParameters_sclY,
      getRandomValue_congr hl1 hl2 5 2 hb]
  · rw [deriveParameters_sclZ, deriveParameters_sclZ,
      getRandomValue_congr hl1 hl2 6 2 hb]
  · rw [deriveParameters_hue, deriveParameters_hue,
      getRandomValue_congr hl1 hl2 7 360 hb]
  · rw [deriveParameters_rotX, deriveParameters_rotX,
      getRandomValue_congr hl1 hl2 8 2 hb]
  · rw [deriveParameters_rotY, deriveParameters_rotY,
      getRandomValue_congr hl1 hl2 9 2 hb]
  · rw [deriveParameters_rotZ, deriveParameters_rotZ,
      getRandomValue_congr hl1 hl2 10 2 hb]
  · rw [deriveParameters_opacity, deriveParameters_opacity,
      getRandomValue_congr hl1 hl2 11 (1/2) hb]

/-- Witness for C7: `allF` and `hueTwin` differ everywhere except byte 7,
yet derive the same hue. -/
theorem C7_slot_independence_witness :
    (deriveParameters allF).hue = (deriveParameters hueTwin).hue :=
  (C7_slot_independence allF hueTwin (by decide)
    (by decide)).2.2.2.2.2.2.2.1 (by decide)

/-- C8: for every valid digest with derived selector ordinal k (the spec's
shapeKind ordinal), the wireframe flag is true exactly when k is even —
the source's `wireframe = typeIndex % 2 === 0`. -/
theorem C8_wireframe_parity (d : String) (hd : Valid64 d) (k : ℤ)
    (hk : (deriveParameters d).typeIndex = some k) :
    (deriveParameters d).wireframe = true ↔ k % 2 = 0 := by
  rw [deriveParameters_wireframe]
  rw [deriveParameters_typeIndex] at hk
  rw [hk]
  simp

/-- Witness for C8 at the all-f digest: ordinal 7 is odd and the wireframe
flag is off. -/
theorem C8_wireframe_parity_witness :
    Valid64 allF ∧
      ((deriveParameters allF).wireframe = true ↔ (7 : ℤ) % 2 = 0) :=
  ⟨by decide,
   C8_wireframe_parity allF (by decide) 7 (by with_unfolding_all decide)⟩

/-! ## The secondary derivation variant (GeometricIdenticonNew.tsx) -/

/-- `numPrimitives = 10` of GeometricIdenticonNew.tsx. -/
def numPrimitives : Nat := 10

/-- `cylinderRadius = 8` of GeometricIdenticonNew.tsx. -/
noncomputable def cylinderRadius : ℝ := 8

/-- `rotationAngle = Math.PI / 45` of GeometricIdenticonNew.tsx (the shared
tilt of the ring). -/
noncomputable def rotationAngle : ℝ := Real.pi / 45

/-- The angle `(i / numPrimitives) * Math.PI * 2` at which primitive `i` of
the ring sits. -/
noncomputable def primAngle (i : Nat) : ℝ :=
  ((i : ℝ) / (numPrimitives : ℝ)) * Real.pi * 2

/-- One entry produced by the `primitivePositions` array builder: a 3D
position plus the sub-shape selector `type`. -/
structure PrimitiveSpec where
  x : ℝ
  y : ℝ
  z : ℝ
  type : Nat

/-- The arrow function mapped by
`Array.from({ length: numPrimitives }, (_, i) => ...)`: place primitive `i`
on a circle of radius `cylinderRadius / 2` at angle `(i / numPrimitives) *
Math.PI * 2`, tilt the circle about the X-axis by `rotationAngle`, and pick
the sub-shape selector `i % 3`. -/
noncomputable def mkPrimitive (i : Nat) : PrimitiveSpec :=
  let angle : ℝ := ((i : ℝ) / (numPrimitives : ℝ)) * Real.pi * 2
  let radius : ℝ := cylinderRadius / 2
  let y : ℝ := radius * Real.sin angle
  let x : ℝ := radius * Real.cos angle
  let newY : ℝ := y * Real.cos rotationAngle
  let newZ : ℝ := y * Real.sin rotationAngle
  ⟨x, newY, newZ, i % 3⟩

/-- The full `primitivePositions` array of GeometricIdenticonNew.tsx. -/
noncomputable def primitivePositions : List PrimitiveSpec :=
  (List.range numPrimitives).map mkPrimitive

/-- The three sub-shape geometries cycled through by the ring. -/
inductive PrimShape
  | sphere | box | cone
deriving DecidableEq, Repr

/-- `createGeometry(type, args)` of GeometricIdenticonNew.tsx (argument lists
elided): case 0 sphere, case 1 box, case 2 cone, default sphere. -/
def createGeometry (t : Nat) : PrimShape :=
  match t with
  | 0 => PrimShape.sphere
  | 1 => PrimShape.box
  | 2 => PrimShape.cone
  | _ => PrimShape.sphere

/-- C9: the ring of auxiliary primitives has the fixed count 10; primitive i
sits at angle `(i / 10) * 2π` on the circle of radius `cylinderRadius / 2`
with the shared tilt `rotationAngle` applied to its y and z coordinates;
consecutive primitives are evenly spaced by the constant angle `2π / 10`;
and the sub-shape selector of primitive i is `i % 3`, cycling with period 3
through the three distinct variants sphere, box, cone. -/
theorem C9_primitive_ring :
    primitivePositions.length = numPrimitives ∧ numPrimitives = 10 ∧
    (∀ i : Nat, i < numPrimitives →
      primitivePositions[i]? = some (mkPrimitive i)) ∧
    (∀ i : Nat,
      (mkPrimitive i).type = i % 3 ∧ (mkPrimitive i).type < 3 ∧
      (mkPrimitive i).x = (cylinderRadius / 2) * Real.cos (primAngle i) ∧
      (mkPrimitive i).y =
        ((cylinderRadius / 2) * Real.sin (primAngle i)) * Real.cos rotationAngle ∧
      (mkPrimitive i).z =
        ((cylinderRadius / 2) * Real.sin (primAngle i)) * Real.sin rotationAngle) ∧
    (∀ i : Nat, primAngle (i + 1) - primAngle i =
      Real.pi * 2 / (numPrimitives : ℝ)) ∧
    (∀ i : Nat, (mkPrimitive (i + 3)).type = (mkPrimitive i).type) ∧
    createGeometry 0 = PrimShape.sphere ∧ createGeometry 1 = PrimShape.box ∧
    createGeometry 2 = PrimShape.cone ∧ PrimShape.sphere ≠ PrimShape.box ∧
    PrimShape.box ≠ PrimShape.cone ∧ PrimShape.sphere ≠ PrimShape.cone := by
  refine ⟨by simp [primitivePositions], rfl, ?_, ?_, ?_, ?_, rfl, rfl, rfl,
    by decide, by decide, by decide⟩
  · intro i hi
    simp [primitivePositions, List.getElem?_map, List.getElem?_range,
      show i < numPrimitives from hi]
  · intro i
    refine ⟨rfl, Nat.mod_lt i (by norm_num), rfl, rfl, rfl⟩
  · intro i
    unfold primAngle
    push_cast
    field_simp
    ring
  · intro i
    show (i + 3) % 3 = i % 3
    omega

/-- Witness for C9 at ring index 2: the array holds `mkPrimitive 2`, whose
sub-shape selector is 2 (a cone). -/
theorem C9_primitive_ring_witness :
    primitivePositions[2]? = some (mkPrimitive 2) ∧ (mkPrimitive 2).type = 2 :=
  ⟨C9_primitive_ring.2.2.1 2 (by decide),
   by simpa using (C9_primitive_ring.2.2.2.1 2).1⟩

/-! ## The digest provider (src/unnamed/part_004) -/

/-- `generateHash(inputString, index)` of src/unnamed/part_004: SHA-256 of
`inputString + index` — JavaScript string concatenation appends the decimal
form of `index` with no separator.  SHA-256 itself lives in the crypto-js
library, so the hash is an abstract function parameter `sha`; the
concatenation is the repository's own code. -/
def generateHash (sha : String → String) (inputString : String)
    (index : Nat) : String :=
  sha (inputString ++ toString index)

/-- C10: because the decimal index is appended with no separator, the
distinct pairs ("A", 11) and ("A1", 1) both hash the string "A11" and hence
receive the identical digest, whatever the underlying hash function is. -/
theorem C10_digest_collision (sha : String → String) :
    generateHash sha "A" 11 = generateHash sha "A1" 1 ∧
    "A" ++ toString 11 = "A11" ∧ "A1" ++ toString 1 = "A11" ∧
    ("A", 11) ≠ (("A1" : String), (1 : Nat)) := by
  refine ⟨?_, by decide, by decide, by decide⟩
  unfold generateHash
  exact congrArg sha (by decide)
